import Mathlib

/-!
Verification development for the incremental JSON parser of
`src/common/JSONParsers.{hpp,cpp}` (repository imageio).

The parsers are shallowly embedded: bytes are `Nat` (0..255), a byte span
`[Begin, End)` is a `List Nat`, and positions returned by a scan are offsets
relative to `Begin` (so "position strictly greater than Begin" reads
"offset strictly greater than 0").  The byte-span protocol guarantees the
byte at `End` is a 0 terminator; `byteAt` reads 0 past the end of the list,
which models every place the C++ code dereferences `*Begin` without first
comparing `Begin != End`.

`float` values are represented by the exact literal text that `strtof`
consumed.  `strtof` is a pure function of that text, so two scans that hand
out the same literal decode equal floats, and `litVal` (the exact rational
value of a literal) separates literals whose float values differ.
-/

set_option maxHeartbeats 1600000

deriving instance DecidableEq for Except

namespace JSONParsers

/-- Byte values of an ASCII string; used to spell test inputs. -/
def bytes (s : String) : List Nat := s.toList.map Char.toNat

/-- Reads the byte at offset `i` of the span; any offset at or past the end of
the list reads the guaranteed 0 terminator placed at `End` by the protocol. -/
def byteAt (cs : List Nat) (i : Nat) : Nat := cs.getD i 0

/-- The `ParserException` instances of JSONParsers.cpp, plus `outOfFuel`, the
marker returned when the explicit bound given to a scanning while-loop runs
out (the bounds supplied by the `Scan` wrappers are large enough that this is
never reached). -/
inductive Err where
  | notFinished
  | invalidArrayStart
  | invalidArraySeparator
  | invalidObjectStart
  | invalidKeySeparator
  | invalidKey
  | invalidValueSeparator
  | requiredKeyNotGiven
  | invalidFloat
  | stringStart
  | stringEscape
  | stringHexDigits
  | stringInvalidCharacter
  | outOfFuel
  deriving DecidableEq

/-- Whitespace in the sense of C `isspace` with the "C" locale (strtof skips
these before a number): space and 0x9..0xD. -/
def isSpaceC (c : Nat) : Bool := c = 32 || (9 ≤ c && c ≤ 13)

/-- Decimal digit. -/
def isDigit (c : Nat) : Bool := 48 ≤ c && c ≤ 57

/-- Hexadecimal digit (after lower-casing, so only 0-9 and a-f remain). -/
def isHexDigit (c : Nat) : Bool := isDigit c || (97 ≤ c && c ≤ 102)

/-- ASCII lower-casing, for strtof's case-insensitive forms. -/
def lowerByte (c : Nat) : Nat := if 65 ≤ c && c ≤ 90 then c + 32 else c

/-- Length of an exponent part `marker sign? digits`; empty digit runs make the
whole exponent part fall out of the subject sequence (C99 longest-valid-prefix
rule), in which case the length is 0. -/
def expLen (marker : Nat) (cs : List Nat) : Nat :=
  match cs with
  | [] => 0
  | e :: rest =>
    if e = marker then
      let sgn := if byteAt rest 0 = 43 || byteAt rest 0 = 45 then 1 else 0
      let d := ((rest.drop sgn).takeWhile isDigit).length
      if d = 0 then 0 else 1 + sgn + d
    else 0

/-- Number of bytes `strtof(Begin, &end)` consumes from the span, i.e.
`end - Begin`: optional `isspace` run, optional sign, then the longest prefix
that is a decimal float, a hexadecimal float, or an `inf`/`infinity`/`nan`
spelling (case-insensitive); 0 when no conversion is possible.  `nan(...)`
sequences are modelled as plain `nan` (no claim exercises them).  The model
relies on the span's 0 terminator: a parse never continues past the list. -/
def strtofConsumed (cs : List Nat) : Nat :=
  let w := (cs.takeWhile isSpaceC).length
  let cs1 := cs.drop w
  let sgn := if byteAt cs1 0 = 43 || byteAt cs1 0 = 45 then 1 else 0
  match (cs1.drop sgn).map lowerByte with
  | 105 :: 110 :: 102 :: rest =>
    if rest.take 5 = [105, 110, 105, 116, 121] then w + sgn + 8 else w + sgn + 3
  | 110 :: 97 :: 110 :: _ => w + sgn + 3
  | 48 :: 120 :: rest =>
    let h1 := (rest.takeWhile isHexDigit).length
    let rest1 := rest.drop h1
    let dot := if byteAt rest1 0 = 46 then 1 else 0
    let h2 := ((rest1.drop dot).takeWhile isHexDigit).length
    if h1 + h2 = 0 then w + sgn + 1
    else w + sgn + 2 + h1 + dot + h2 + expLen 112 ((rest1.drop dot).drop h2)
  | l =>
    let d1 := (l.takeWhile isDigit).length
    let l1 := l.drop d1
    let dot := if byteAt l1 0 = 46 then 1 else 0
    let d2 := ((l1.drop dot).takeWhile isDigit).length
    if d1 + d2 = 0 then 0
    else w + sgn + d1 + dot + d2 + expLen 101 ((l1.drop dot).drop d2)

/-- Value of a run of decimal digit bytes. -/
def digitsVal (ds : List Nat) : Nat := ds.foldl (fun a c => 10 * a + (c - 48)) 0

/-- Exact value of a decimal float literal (optional sign, digits, optional
fraction, optional e/E exponent), represented as a pair `(n, d)` whose value
is `n / 10 ^ d`.  An empty or unconvertible literal gives `(0, 0)`, matching
`strtof` returning 0.0f when no conversion is performed. -/
def litNum (cs : List Nat) : Int × Nat :=
  let neg := byteAt cs 0 = 45
  let cs1 := if byteAt cs 0 = 45 || byteAt cs 0 = 43 then cs.drop 1 else cs
  let ip := cs1.takeWhile isDigit
  let cs2 := cs1.drop ip.length
  let fp := if byteAt cs2 0 = 46 then (cs2.drop 1).takeWhile isDigit else []
  let cs3 := if byteAt cs2 0 = 46 then (cs2.drop 1).drop fp.length else cs2
  let m : Nat := digitsVal (ip ++ fp)
  let hasExp := byteAt cs3 0 = 101 || byteAt cs3 0 = 69
  let cs4 := if hasExp then cs3.drop 1 else []
  let eneg := byteAt cs4 0 = 45
  let cs5 := if byteAt cs4 0 = 45 || byteAt cs4 0 = 43 then cs4.drop 1 else cs4
  let e := digitsVal (cs5.takeWhile isDigit)
  let n : Nat := if hasExp ∧ ¬ eneg then m * 10 ^ e else m
  let d : Nat := if hasExp ∧ eneg then fp.length + e else fp.length
  (if neg then -(n : Int) else (n : Int), d)

/-- Exact rational value of a decimal float literal.  `strtof` returns this
value rounded to `float`, so two literals whose `litVal`s round to distinct
floats decode to distinct values. -/
def litVal (cs : List Nat) : ℚ := ((litNum cs).1 : ℚ) / (10 : ℚ) ^ (litNum cs).2

/-- State of the pool-shared `ParseFloat` instance (only the inherited
`SimpleValueParser::finished` flag). -/
structure ParseFloat where
  finished : Bool
  deriving DecidableEq

/-- State of the pool-shared `ParseString` instance. -/
structure ParseString where
  finished : Bool
  count : Int
  hexDigits : List Nat
  escaped : Bool
  began : Bool
  deriving DecidableEq

def ParseString.init : ParseString :=
  { finished := true, count := -1, hexDigits := [], escaped := false, began := false }

/-- The `ParserPool`: the shared scratch buffer, the per-kind parser states and
the per-kind decoded value slots.  `wsFinished` is the `finished` flag of the
pool's `SkipWhitespace` instance (kept for faithfulness; nothing reads it). -/
structure ParserPool where
  buffer : List Nat
  floatParser : ParseFloat
  stringParser : ParseString
  wsFinished : Bool
  floatValue : List Nat
  stringValue : List Nat
  deriving DecidableEq

/-- A freshly constructed pool: every `SimpleValueParser` starts finished, the
float slot holds value-initialized 0.0f (`litVal [] = 0`), the string slot an
empty string. -/
def ParserPool.init : ParserPool :=
  { buffer := [], floatParser := ⟨true⟩, stringParser := ParseString.init,
    wsFinished := true, floatValue := [], stringValue := [] }

/-- The whitespace set of `SkipWhitespace::Scan`: space, tab, LF, CR. -/
def isJsonWS (c : Nat) : Bool := c = 32 || c = 9 || c = 10 || c = 13

/-- `SkipWhitespace::Scan`: succeed at the first non-whitespace offset (which
may be offset 0, i.e. `Begin` itself), suspend when the whole span is
whitespace.  `setFinished(ptr, Pool)` clears the pool buffer on success. -/
def SkipWhitespace.Scan (pool : ParserPool) (cs : List Nat) : ParserPool × Option Nat :=
  let n := (cs.takeWhile isJsonWS).length
  if n ≠ cs.length then ({ pool with buffer := [], wsFinished := true }, some n)
  else ({ pool with wsFinished := false }, none)

/-- Characters of the accepted numeric-literal alphabet re-scanned and copied
by `ParseFloat::Scan`: digits, `.`, `e`, `E`, `-`, `+`. -/
def floatAccepted (c : Nat) : Bool :=
  (48 ≤ c && c ≤ 57) || c = 46 || c = 101 || c = 69 || c = 45 || c = 43

/-- `ParseFloat::Scan`.  Fresh token (empty pool buffer): run `strtof` on the
span; if it consumed characters and stopped strictly before `End`, re-scan the
consumed run against the accepted alphabet (reject with invalid-float on a
stray character) and finish at the position past it; otherwise copy the
accepted-alphabet run into the scratch buffer and suspend, rejecting when the
run stops before `End`.  Resumed token: append further accepted characters to
the buffer; if they reach `End` suspend again, else convert the buffered text
with `strtof`, which must consume the buffer exactly. -/
def ParseFloat.Scan (pool : ParserPool) (cs : List Nat) :
    Except Err (ParserPool × Option Nat) :=
  if pool.buffer = [] then
    let consumed := strtofConsumed cs
    let pool1 := { pool with floatValue := cs.take consumed }
    if consumed ≠ 0 ∧ consumed ≠ cs.length then
      if (cs.take consumed).all floatAccepted then
        Except.ok ({ pool1 with floatParser := ⟨true⟩, buffer := [] }, some consumed)
      else Except.error Err.invalidFloat
    else
      let run := cs.takeWhile floatAccepted
      if run.length ≠ cs.length then Except.error Err.invalidFloat
      else Except.ok ({ pool1 with floatParser := ⟨false⟩, buffer := pool1.buffer ++ run }, none)
  else
    let run := cs.takeWhile floatAccepted
    let buf := pool.buffer ++ run
    if run.length = cs.length then
      Except.ok ({ pool with floatParser := ⟨false⟩, buffer := buf }, none)
    else
      if strtofConsumed buf ≠ buf.length then Except.error Err.invalidFloat
      else
        Except.ok ({ pool with floatParser := ⟨true⟩, buffer := [], floatValue := buf }, some run.length)

/-- Value of a hexadecimal digit byte, or `none` for a non-hex byte. -/
def hexVal (c : Nat) : Option Nat :=
  if 48 ≤ c && c ≤ 57 then some (c - 48)
  else if 97 ≤ c && c ≤ 102 then some (10 + c - 97)
  else if 65 ≤ c && c ≤ 70 then some (10 + c - 65)
  else none

/-- UTF-8 encoding of a `\uXXXX` code point as performed by `ParseString::scan`:
one byte below 0x80, two bytes below 0x800, three bytes otherwise. -/
def utf8Encode (v : Nat) : List Nat :=
  if v < 0x80 then [v]
  else if v < 0x800 then [0xc0 ||| ((v >>> 6) &&& 0x1f), 0x80 ||| (v &&& 0x3f)]
  else [0xe0 ||| ((v >>> 12) &&& 0xf), 0x80 ||| ((v >>> 6) &&& 0x3f), 0x80 ||| (v &&& 0x3f)]

/-- `ParseString::scan` on one body byte: returns the updated pool (the string
parser state lives in the pool) and `true` exactly when the closing quote was
seen.  Plain bytes above 31 are batched in the scratch buffer and flushed to
the string slot when the buffer outgrows it; bytes 0..31 are rejected;
backslash starts an escape; `\u` collects four hex digits and emits their
UTF-8 encoding. -/
def ParseString.scanChar (pool : ParserPool) (c : Nat) : Except Err (ParserPool × Bool) :=
  let sp := pool.stringParser
  if ¬ sp.escaped ∧ sp.count = -1 then
    if c ≠ 92 then
      if c ≠ 34 then
        if 31 < c then
          let buf := pool.buffer ++ [c]
          if pool.stringValue.length < buf.length then
            Except.ok ({ pool with buffer := [], stringValue := pool.stringValue ++ buf }, false)
          else Except.ok ({ pool with buffer := buf }, false)
        else Except.error Err.stringInvalidCharacter
      else Except.ok ({ pool with stringValue := pool.stringValue ++ pool.buffer }, true)
    else Except.ok ({ pool with stringParser := { sp with escaped := true } }, false)
  else if sp.count ≠ -1 then
    let hx := sp.hexDigits ++ [c]
    if hx.length < 4 then
      Except.ok ({ pool with stringParser := { sp with count := sp.count + 1, hexDigits := hx } }, false)
    else
      match hx.mapM hexVal with
      | none => Except.error Err.stringHexDigits
      | some vs =>
        let v := vs.foldl (fun a m => 16 * a + m) 0
        let sp1 := { sp with count := (-1 : Int), hexDigits := ([] : List Nat) }
        Except.ok ({ pool with buffer := pool.buffer ++ utf8Encode v, stringParser := sp1 }, false)
  else
    let push : Nat → Except Err (ParserPool × Bool) := fun b =>
      Except.ok ({ pool with buffer := pool.buffer ++ [b], stringParser := { sp with escaped := false } }, false)
    if c = 34 ∨ c = 47 ∨ c = 92 then push c
    else if c = 98 then push 8
    else if c = 102 then push 12
    else if c = 110 then push 10
    else if c = 114 then push 13
    else if c = 116 then push 9
    else if c = 117 then
      Except.ok ({ pool with stringParser := { sp with escaped := false, count := 0 } }, false)
    else Except.error Err.stringEscape

/-- The body loop of `ParseString::Scan`: feed bytes one at a time until the
closing quote (finish at the offset past it, clearing the scratch buffer) or
the span is exhausted (suspend). -/
def ParseString.scanLoop : ParserPool → List Nat → Nat → Except Err (ParserPool × Option Nat)
  | pool, [], _ =>
    Except.ok ({ pool with stringParser := { pool.stringParser with finished := false } }, none)
  | pool, c :: rest, pos =>
    match ParseString.scanChar pool c with
    | Except.error e => Except.error e
    | Except.ok (pool, true) =>
      let sp1 := { pool.stringParser with began := false, finished := true }
      Except.ok ({ pool with buffer := [], stringParser := sp1 }, some (pos + 1))
    | Except.ok (pool, false) => ParseString.scanLoop pool rest (pos + 1)

/-- `ParseString::Scan`: on a fresh literal clear the string slot and require
an opening quote (reading the terminator when the span is empty), then run the
body loop. -/
def ParseString.Scan (pool : ParserPool) (cs : List Nat) :
    Except Err (ParserPool × Option Nat) :=
  if pool.stringParser.began = false then
    let pool1 := { pool with stringValue := [] }
    if byteAt cs 0 ≠ 34 then Except.error Err.stringStart
    else
      ParseString.scanLoop
        { pool1 with stringParser := { pool1.stringParser with began := true } } (cs.drop 1) 1
  else ParseString.scanLoop pool cs 0

/-- State of a `ParseArray<ParseFloat>` combinator: the accumulated elements
(floats as their consumed literals), the `began`/`had_comma` flags and the
inherited `finished` flag.  The element parser and its value slot are the
pool-shared `ParseFloat`. -/
structure ParseArray where
  finished : Bool
  out : List (List Nat)
  began : Bool
  hadComma : Bool
  deriving DecidableEq

/-- A default-constructed `ParseArray<ParseFloat>`. -/
def ParseArray.init : ParseArray :=
  { finished := true, out := [], began := false, hadComma := false }

/-- `ParseArray::Swap`: refuse with the not-finished error unless the scan has
reported completion, else hand the accumulated list out and leave the member
empty. -/
def ParseArray.Swap (st : ParseArray) : Except Err (List (List Nat) × ParseArray) :=
  if st.finished = false then Except.error Err.notFinished
  else Except.ok (st.out, { st with out := [] })

/-- Outcome of one pass through the body of a scanning while loop: either a
value returned to the caller (result or exception), or updated state to
continue the loop with. -/
inductive Flow (σ : Type) where
  | ret (r : Except Err (σ × ParserPool × Option Nat))
  | cont (st : σ) (pool : ParserPool) (b : Nat)

/-- One iteration of the while loop of `ParseArray<ParseFloat>::Scan` at
offset `b` of the span: after at least one element and no pending comma,
consume a `,` (possibly after whitespace) or finish at `]`; before any
element, a `]` after whitespace finishes an empty array; then skip whitespace
and scan the next float element, appending its decoded value. -/
def ParseArray.step (st : ParseArray) (pool : ParserPool) (cs : List Nat) (b : Nat) :
    Flow ParseArray :=
  let tail : ParseArray → ParserPool → Nat → Flow ParseArray := fun st pool b =>
    match SkipWhitespace.Scan pool (cs.drop b) with
    | (pool, none) => Flow.ret (Except.ok ({ st with finished := false }, pool, none))
    | (pool, some k) =>
      match ParseFloat.Scan pool (cs.drop (b + k)) with
      | Except.error e => Flow.ret (Except.error e)
      | Except.ok (pool, none) => Flow.ret (Except.ok ({ st with finished := false }, pool, none))
      | Except.ok (pool, some m) =>
        Flow.cont { st with out := st.out ++ [pool.floatValue], hadComma := false } pool (b + k + m)
  if st.out ≠ [] ∧ st.hadComma = false then
    if byteAt cs b = 44 then
      tail { st with hadComma := true } pool (b + 1)
    else
      match SkipWhitespace.Scan pool (cs.drop b) with
      | (pool, none) => Flow.ret (Except.ok ({ st with finished := false }, pool, none))
      | (pool, some k) =>
        if byteAt cs (b + k) = 93 then
          Flow.ret (Except.ok ({ st with began := false, finished := true }, pool, some (b + k + 1)))
        else if byteAt cs (b + k) ≠ 44 then
          Flow.ret (Except.error Err.invalidArraySeparator)
        else
          tail { st with hadComma := true } pool (b + k + 1)
  else if st.out = [] then
    match SkipWhitespace.Scan pool (cs.drop b) with
    | (pool, none) => Flow.ret (Except.ok ({ st with finished := false }, pool, none))
    | (pool, some k) =>
      if byteAt cs (b + k) = 93 then
        Flow.ret (Except.ok ({ st with began := false, finished := true }, pool, some (b + k + 1)))
      else
        tail st pool (b + k)
  else
    tail st pool b

/-- The while loop of `ParseArray<ParseFloat>::Scan`, bounded by `fuel`. -/
def ParseArray.loop (fuel : Nat) (st : ParseArray) (pool : ParserPool) (cs : List Nat)
    (b : Nat) : Except Err (ParseArray × ParserPool × Option Nat) :=
  match fuel with
  | 0 => Except.error Err.outOfFuel
  | fuel + 1 =>
    if b = cs.length then Except.ok ({ st with finished := false }, pool, none)
    else
      match ParseArray.step st pool cs b with
      | Flow.ret r => r
      | Flow.cont st pool b => ParseArray.loop fuel st pool cs b

/-- `ParseArray<ParseFloat>::Scan`: resume a mid-flight element first, else on
the first call require `[` (reading the terminator when the span is empty),
then run the structural loop. -/
def ParseArray.Scan (st : ParseArray) (pool : ParserPool) (cs : List Nat) :
    Except Err (ParseArray × ParserPool × Option Nat) :=
  if pool.floatParser.finished = false then
    match ParseFloat.Scan pool cs with
    | Except.error e => Except.error e
    | Except.ok (pool, none) => Except.ok ({ st with finished := false }, pool, none)
    | Except.ok (pool, some k) =>
      ParseArray.loop (cs.length + 8)
        { st with out := st.out ++ [pool.floatValue], hadComma := false } pool cs k
  else if st.began = false then
    if byteAt cs 0 ≠ 91 then Except.error Err.invalidArrayStart
    else ParseArray.loop (cs.length + 8) { st with began := true, hadComma := false } pool cs 1
  else ParseArray.loop (cs.length + 8) st pool cs 0

/-- State of a `ParseContainerArray<ParseArray<ParseFloat>>` combinator: unlike
`ParseArray` it owns a private instance `p` of the element combinator. -/
structure ParseContainerArray where
  finished : Bool
  p : ParseArray
  out : List (List (List Nat))
  began : Bool
  hadComma : Bool
  deriving DecidableEq

/-- A default-constructed `ParseContainerArray<ParseArray<ParseFloat>>`. -/
def ParseContainerArray.init : ParseContainerArray :=
  { finished := true, p := ParseArray.init, out := [], began := false, hadComma := false }

/-- `ParseContainerArray::Swap`: as `ParseArray::Swap`, guarded by the
not-finished error. -/
def ParseContainerArray.Swap (st : ParseContainerArray) :
    Except Err (List (List (List Nat)) × ParseContainerArray) :=
  if st.finished = false then Except.error Err.notFinished
  else Except.ok (st.out, { st with out := [] })

/-- One iteration of the while loop of `ParseContainerArray::Scan`; identical
structure to `ParseArray.step` with the owned element combinator scanned in
place of the pool float parser, and each completed element extracted with the
element's `Swap` (`out.push_back(Type()); p.Swap(out.back())`). -/
def ParseContainerArray.step (st : ParseContainerArray) (pool : ParserPool) (cs : List Nat)
    (b : Nat) : Flow ParseContainerArray :=
  let tail : ParseContainerArray → ParserPool → Nat → Flow ParseContainerArray := fun st pool b =>
    match SkipWhitespace.Scan pool (cs.drop b) with
    | (pool, none) => Flow.ret (Except.ok ({ st with finished := false }, pool, none))
    | (pool, some k) =>
      match ParseArray.Scan st.p pool (cs.drop (b + k)) with
      | Except.error e => Flow.ret (Except.error e)
      | Except.ok (pe, pool, none) =>
        Flow.ret (Except.ok ({ st with p := pe, finished := false }, pool, none))
      | Except.ok (pe, pool, some m) =>
        match ParseArray.Swap pe with
        | Except.error e => Flow.ret (Except.error e)
        | Except.ok (v, pe) =>
          Flow.cont { st with p := pe, out := st.out ++ [v], hadComma := false } pool (b + k + m)
  if st.out ≠ [] ∧ st.hadComma = false then
    if byteAt cs b = 44 then
      tail { st with hadComma := true } pool (b + 1)
    else
      match SkipWhitespace.Scan pool (cs.drop b) with
      | (pool, none) => Flow.ret (Except.ok ({ st with finished := false }, pool, none))
      | (pool, some k) =>
        if byteAt cs (b + k) = 93 then
          Flow.ret (Except.ok ({ st with began := false, finished := true }, pool, some (b + k + 1)))
        else if byteAt cs (b + k) ≠ 44 then
          Flow.ret (Except.error Err.invalidArraySeparator)
        else
          tail { st with hadComma := true } pool (b + k + 1)
  else if st.out = [] then
    match SkipWhitespace.Scan pool (cs.drop b) with
    | (pool, none) => Flow.ret (Except.ok ({ st with finished := false }, pool, none))
    | (pool, some k) =>
      if byteAt cs (b + k) = 93 then
        Flow.ret (Except.ok ({ st with began := false, finished := true }, pool, some (b + k + 1)))
      else
        tail st pool (b + k)
  else
    tail st pool b

/-- The while loop of `ParseContainerArray::Scan`, bounded by `fuel`. -/
def ParseContainerArray.loop (fuel : Nat) (st : ParseContainerArray) (pool : ParserPool)
    (cs : List Nat) (b : Nat) : Except Err (ParseContainerArray × ParserPool × Option Nat) :=
  match fuel with
  | 0 => Except.error Err.outOfFuel
  | fuel + 1 =>
    if b = cs.length then Except.ok ({ st with finished := false }, pool, none)
    else
      match ParseContainerArray.step st pool cs b with
      | Flow.ret r => r
      | Flow.cont st pool b => ParseContainerArray.loop fuel st pool cs b

/-- `ParseContainerArray<ParseArray<ParseFloat>>::Scan`. -/
def ParseContainerArray.Scan (st : ParseContainerArray) (pool : ParserPool) (cs : List Nat) :
    Except Err (ParseContainerArray × ParserPool × Option Nat) :=
  if st.p.finished = false then
    match ParseArray.Scan st.p pool cs with
    | Except.error e => Except.error e
    | Except.ok (pe, pool, none) => Except.ok ({ st with p := pe, finished := false }, pool, none)
    | Except.ok (pe, pool, some k) =>
      match ParseArray.Swap pe with
      | Except.error e => Except.error e
      | Except.ok (v, pe) =>
        ParseContainerArray.loop (cs.length + 8)
          { st with p := pe, out := st.out ++ [v], hadComma := false } pool cs k
  else if st.began = false then
    if byteAt cs 0 ≠ 91 then Except.error Err.invalidArrayStart
    else
      ParseContainerArray.loop (cs.length + 8)
        { st with began := true, hadComma := false } pool cs 1
  else ParseContainerArray.loop (cs.length + 8) st pool cs 0

/-- The explicit state enum of `ParseObject`. -/
inductive OState where
  | NotStarted
  | PreKey
  | ExpectKey
  | PreColon
  | ExpectColon
  | PreValue
  | ExpectValue
  | PreComma
  | ExpectComma
  deriving DecidableEq

/-- One schema field: the key text and whether the field is required
(`KeyValue` vs `RequiredKeyValue`).  Fields in the schemas the claims
exercise are float-valued and bound to the pool float scanner. -/
structure FieldDesc where
  key : List Nat
  required : Bool
  deriving DecidableEq

/-- One slot of the typed output record (`Value<Parser>` behind a
`ValueStore`): the decoded value and the given-flag. -/
structure ValueSlot where
  given : Bool
  value : List Nat
  deriving DecidableEq

/-- A value-initialized slot: given-flag false, value 0.0f (`litVal [] = 0`). -/
def ValueSlot.init : ValueSlot := { given := false, value := [] }

/-- State of a `ParseObject<KeyValues, Values>` instance over a schema of
float-valued fields: per-field `ScanningKeyValue::given` flags, the output
record `out`, the `activating`/`active` indices and the state enum. -/
structure ParseObject where
  finished : Bool
  parserGiven : List Bool
  outFields : List ValueSlot
  activating : Int
  active : Int
  state : OState
  deriving DecidableEq

/-- A default-constructed `ParseObject` for the given schema. -/
def ParseObject.init (schema : List FieldDesc) : ParseObject :=
  { finished := true, parserGiven := schema.map fun _ => false,
    outFields := schema.map fun _ => ValueSlot.init,
    activating := -1, active := -1, state := OState.NotStarted }

/-- `ParseObject::setActivating`: resolve the decoded key against the schema
key table (first strcmp match), unknown key raises the invalid-key error. -/
def ParseObject.setActivating (schema : List FieldDesc) (incoming : List Nat) :
    Except Err Int :=
  match schema.findIdx? (fun f => f.key == incoming) with
  | some k => Except.ok (Int.ofNat k)
  | none => Except.error Err.invalidKey

/-- `ParseObject::checkPassed`: at the closing brace, fail with the
required-key-not-given error when some required field's slot lacks its
given-flag, else reset the state machine to `NotStarted`, clear the
`activating`/`active` indices and finish at the given position. -/
def ParseObject.checkPassed (schema : List FieldDesc) (st : ParseObject) (pool : ParserPool)
    (p : Nat) : Except Err (ParseObject × ParserPool × Option Nat) :=
  if (schema.zip st.outFields).any (fun z => z.1.required && !z.2.given) then
    Except.error Err.requiredKeyNotGiven
  else
    let st1 := { st with
                  state := OState.NotStarted,
                  activating := (-1 : Int),
                  active := (-1 : Int),
                  finished := true }
    Except.ok (st1, pool, some p)

/-- `ParseObject::Scan`, PreKey block: skip whitespace, a `}` ends the object
through the completion check, else expect a key next. -/
def ParseObject.stagePreKey (schema : List FieldDesc) (st : ParseObject) (pool : ParserPool)
    (cs : List Nat) (b : Nat) : Flow ParseObject :=
  if st.state = OState.PreKey then
    match SkipWhitespace.Scan pool (cs.drop b) with
    | (pool, none) => Flow.ret (Except.ok ({ st with finished := false }, pool, none))
    | (pool, some k) =>
      if byteAt cs (b + k) = 125 then
        Flow.ret (ParseObject.checkPassed schema st pool (b + k + 1))
      else Flow.cont { st with state := OState.ExpectKey } pool (b + k)
  else Flow.cont st pool b

/-- `ParseObject::Scan`, ExpectKey block: delegate to the pool string scanner
and resolve the decoded key. -/
def ParseObject.stageExpectKey (schema : List FieldDesc) (st : ParseObject) (pool : ParserPool)
    (cs : List Nat) (b : Nat) : Flow ParseObject :=
  if st.state = OState.ExpectKey then
    match ParseString.Scan pool (cs.drop b) with
    | Except.error e => Flow.ret (Except.error e)
    | Except.ok (pool, none) => Flow.ret (Except.ok ({ st with finished := false }, pool, none))
    | Except.ok (pool, some k) =>
      match ParseObject.setActivating schema pool.stringValue with
      | Except.error e => Flow.ret (Except.error e)
      | Except.ok a => Flow.cont { st with activating := a, state := OState.PreColon } pool (b + k)
  else Flow.cont st pool b

/-- `ParseObject::Scan`, PreColon block: skip whitespace before the colon. -/
def ParseObject.stagePreColon (st : ParseObject) (pool : ParserPool)
    (cs : List Nat) (b : Nat) : Flow ParseObject :=
  if st.state = OState.PreColon then
    match SkipWhitespace.Scan pool (cs.drop b) with
    | (pool, none) => Flow.ret (Except.ok ({ st with finished := false }, pool, none))
    | (pool, some k) => Flow.cont { st with state := OState.ExpectColon } pool (b + k)
  else Flow.cont st pool b

/-- `ParseObject::Scan`, ExpectColon block: require `:` (invalid-key-separator
otherwise) and suspend immediately when it was the last byte of the span. -/
def ParseObject.stageExpectColon (st : ParseObject) (pool : ParserPool)
    (cs : List Nat) (b : Nat) : Flow ParseObject :=
  if st.state = OState.ExpectColon then
    if byteAt cs b ≠ 58 then Flow.ret (Except.error Err.invalidKeySeparator)
    else
      let st1 := { st with state := OState.PreValue }
      if b + 1 = cs.length then Flow.ret (Except.ok ({ st1 with finished := false }, pool, none))
      else Flow.cont st1 pool (b + 1)
  else Flow.cont st pool b

/-- `ParseObject::Scan`, PreValue block: skip whitespace and latch the
activating field index into `active`. -/
def ParseObject.stagePreValue (st : ParseObject) (pool : ParserPool)
    (cs : List Nat) (b : Nat) : Flow ParseObject :=
  if st.state = OState.PreValue then
    match SkipWhitespace.Scan pool (cs.drop b) with
    | (pool, none) => Flow.ret (Except.ok ({ st with finished := false }, pool, none))
    | (pool, some k) =>
      let st1 := { st with
                    active := st.activating,
                    activating := (-1 : Int),
                    state := OState.ExpectValue }
      Flow.cont st1 pool (b + k)
  else Flow.cont st pool b

/-- `ParseObject::Scan`, ExpectValue block: `parsers.Scanner(active, Pool)`
marks the active key-value as given and yields the bound scanner (the pool
float scanner for the float-valued schemas here); on completion
`KeyValue::Swap` swaps the pool slot into the output record slot, sets the
record's given-flag and clears the key-value's. -/
def ParseObject.stageExpectValue (st : ParseObject) (pool : ParserPool)
    (cs : List Nat) (b : Nat) : Flow ParseObject :=
  if st.state = OState.ExpectValue then
    let i := st.active.toNat
    let st := { st with parserGiven := st.parserGiven.set i true }
    match ParseFloat.Scan pool (cs.drop b) with
    | Except.error e => Flow.ret (Except.error e)
    | Except.ok (pool, none) => Flow.ret (Except.ok ({ st with finished := false }, pool, none))
    | Except.ok (pool, some k) =>
      let slot := st.outFields.getD i ValueSlot.init
      let st1 := { st with
                    outFields := st.outFields.set i { given := true, value := pool.floatValue },
                    parserGiven := st.parserGiven.set i false,
                    active := (-1 : Int),
                    state := OState.PreComma }
      Flow.cont st1 { pool with floatValue := slot.value } (b + k)
  else Flow.cont st pool b

/-- `ParseObject::Scan`, PreComma block: skip whitespace before `}` or `,`. -/
def ParseObject.stagePreComma (st : ParseObject) (pool : ParserPool)
    (cs : List Nat) (b : Nat) : Flow ParseObject :=
  if st.state = OState.PreComma then
    match SkipWhitespace.Scan pool (cs.drop b) with
    | (pool, none) => Flow.ret (Except.ok ({ st with finished := false }, pool, none))
    | (pool, some k) => Flow.cont { st with state := OState.ExpectComma } pool (b + k)
  else Flow.cont st pool b

/-- `ParseObject::Scan`, ExpectComma block: `}` ends the object through the
completion check, `,` returns to PreKey, anything else raises the
invalid-value-separator error. -/
def ParseObject.stageExpectComma (schema : List FieldDesc) (st : ParseObject) (pool : ParserPool)
    (cs : List Nat) (b : Nat) : Flow ParseObject :=
  if st.state = OState.ExpectComma then
    if byteAt cs b = 125 then Flow.ret (ParseObject.checkPassed schema st pool (b + 1))
    else if byteAt cs b ≠ 44 then Flow.ret (Except.error Err.invalidValueSeparator)
    else Flow.cont { st with state := OState.PreKey } pool (b + 1)
  else Flow.cont st pool b

/-- One iteration of the while loop of `ParseObject::Scan`: the cascade of
state blocks, each falling through to the next within the same iteration. -/
def ParseObject.step (schema : List FieldDesc) (st : ParseObject) (pool : ParserPool)
    (cs : List Nat) (b : Nat) : Flow ParseObject :=
  match ParseObject.stagePreKey schema st pool cs b with
  | Flow.ret r => Flow.ret r
  | Flow.cont st pool b =>
  match ParseObject.stageExpectKey schema st pool cs b with
  | Flow.ret r => Flow.ret r
  | Flow.cont st pool b =>
  match ParseObject.stagePreColon st pool cs b with
  | Flow.ret r => Flow.ret r
  | Flow.cont st pool b =>
  match ParseObject.stageExpectColon st pool cs b with
  | Flow.ret r => Flow.ret r
  | Flow.cont st pool b =>
  match ParseObject.stagePreValue st pool cs b with
  | Flow.ret r => Flow.ret r
  | Flow.cont st pool b =>
  match ParseObject.stageExpectValue st pool cs b with
  | Flow.ret r => Flow.ret r
  | Flow.cont st pool b =>
  match ParseObject.stagePreComma st pool cs b with
  | Flow.ret r => Flow.ret r
  | Flow.cont st pool b =>
  match ParseObject.stageExpectComma schema st pool cs b with
  | Flow.ret r => Flow.ret r
  | Flow.cont st pool b => Flow.cont st pool b

/-- The while loop of `ParseObject::Scan`, bounded by `fuel`. -/
def ParseObject.loop (schema : List FieldDesc) (fuel : Nat) (st : ParseObject)
    (pool : ParserPool) (cs : List Nat) (b : Nat) :
    Except Err (ParseObject × ParserPool × Option Nat) :=
  match fuel with
  | 0 => Except.error Err.outOfFuel
  | fuel + 1 =>
    if b = cs.length then Except.ok ({ st with finished := false }, pool, none)
    else
      match ParseObject.step schema st pool cs b with
      | Flow.ret r => r
      | Flow.cont st pool b => ParseObject.loop schema fuel st pool cs b

/-- `ParseObject::Scan`: on the first call require `{` (reading the terminator
when the span is empty), then run the state-machine loop. -/
def ParseObject.Scan (schema : List FieldDesc) (st : ParseObject) (pool : ParserPool)
    (cs : List Nat) : Except Err (ParseObject × ParserPool × Option Nat) :=
  if st.state = OState.NotStarted then
    if byteAt cs 0 ≠ 123 then Except.error Err.invalidObjectStart
    else ParseObject.loop schema (cs.length + 16) { st with state := OState.PreKey } pool cs 1
  else ParseObject.loop schema (cs.length + 16) st pool cs 0

/-- `ParseObject::Swap`: move the whole output record out and replace it with
a freshly defaulted one.  Unlike the array combinators there is no
completion-check guard. -/
def ParseObject.Swap (schema : List FieldDesc) (st : ParseObject) :
    List ValueSlot × ParseObject :=
  (st.outFields, { st with outFields := schema.map fun _ => ValueSlot.init })

/-! Schemas used by the object-combinator claims: one float-valued field
`name`, required or optional. -/

/-- Schema with a single required float field `name`. -/
def schemaRequiredName : List FieldDesc := [{ key := bytes "name", required := true }]

/-- Schema with a single optional float field `name`. -/
def schemaOptionalName : List FieldDesc := [{ key := bytes "name", required := false }]

/-! Helper lemmas about `takeWhile` runs and spans. -/

theorem takeWhile_cons_eq (p : Nat → Bool) (a : Nat) (l : List Nat) :
    (a :: l).takeWhile p = if p a then a :: l.takeWhile p else [] := by
  cases hp : p a <;> simp [List.takeWhile, hp]

theorem takeWhile_len_le (p : Nat → Bool) (cs : List Nat) :
    (cs.takeWhile p).length ≤ cs.length := by
  induction cs with
  | nil => simp
  | cons a l ih =>
    rw [takeWhile_cons_eq]
    cases hp : p a
    · simp
    · simp
      omega

theorem takeWhile_all_eq_self (p : Nat → Bool) (cs : List Nat) (h : cs.all p = true) :
    cs.takeWhile p = cs := by
  induction cs with
  | nil => rfl
  | cons a l ih =>
    simp only [List.all_cons, Bool.and_eq_true] at h
    simp [takeWhile_cons_eq, h.1, ih h.2]

theorem takeWhile_spec (p : Nat → Bool) (cs : List Nat) :
    (∀ i, i < (cs.takeWhile p).length → p (byteAt cs i) = true) ∧
    ((cs.takeWhile p).length < cs.length → p (byteAt cs ((cs.takeWhile p).length)) = false) := by
  induction cs with
  | nil => simp
  | cons a l ih =>
    cases hp : p a
    · constructor
      · intro i hi
        rw [takeWhile_cons_eq, hp] at hi
        simp at hi
      · intro _
        rw [takeWhile_cons_eq, hp]
        simpa [byteAt] using hp
    · constructor
      · intro i hi
        rw [takeWhile_cons_eq, hp] at hi
        cases i with
        | zero => simpa [byteAt] using hp
        | succ j =>
          simp at hi
          have hj := ih.1 j (by omega)
          simpa [byteAt] using hj
      · intro hlt
        rw [takeWhile_cons_eq, hp] at hlt ⊢
        simp at hlt ⊢
        have hj := ih.2 (by omega)
        simpa [byteAt] using hj

theorem all_take_false (p : Nat → Bool) (cs : List Nat) (n i : Nat)
    (hi : i < n) (hlen : i < cs.length) (hbad : p (byteAt cs i) = false) :
    (cs.take n).all p = false := by
  cases hall : (cs.take n).all p
  · rfl
  · exfalso
    have hlt : i < (cs.take n).length := by simp; omega
    have hmem : cs[i] ∈ cs.take n := by
      have he : (cs.take n)[i] = cs[i] := List.getElem_take cs
      rw [← he]
      exact List.getElem_mem hlt
    have hp := (List.all_eq_true.mp hall) _ hmem
    rw [byteAt, List.getD_eq_getElem cs 0 hlen] at hbad
    simp_all

/-! Helper lemmas about `ParseFloat.Scan` on a fresh token. -/

theorem floatScan_stray_invalid (pool : ParserPool) (cs : List Nat) (i : Nat)
    (hbuf : pool.buffer = []) (hpos : 0 < strtofConsumed cs)
    (hi : i < strtofConsumed cs) (hlen : i < cs.length)
    (hbad : floatAccepted (byteAt cs i) = false) :
    ParseFloat.Scan pool cs = Except.error Err.invalidFloat := by
  unfold ParseFloat.Scan
  rw [hbuf]
  by_cases hc : strtofConsumed cs = cs.length
  · have hne : ¬(strtofConsumed cs ≠ 0 ∧ strtofConsumed cs ≠ cs.length) := by tauto
    have hrun : (cs.takeWhile floatAccepted).length ≠ cs.length := by
      intro he
      have hsp := (takeWhile_spec floatAccepted cs).1 i (by omega)
      rw [hsp] at hbad
      cases hbad
    simp [hne, hrun]
  · have hcond : strtofConsumed cs ≠ 0 ∧ strtofConsumed cs ≠ cs.length := ⟨by omega, hc⟩
    have hall : (cs.take (strtofConsumed cs)).all floatAccepted = false :=
      all_take_false _ _ _ i hi hlen hbad
    simp [hcond, hall]

theorem floatScan_ok_alphabet (pool pool1 : ParserPool) (cs : List Nat) (p : Nat)
    (hbuf : pool.buffer = []) (h : ParseFloat.Scan pool cs = Except.ok (pool1, some p)) :
    (cs.take p).all floatAccepted = true := by
  unfold ParseFloat.Scan at h
  rw [hbuf] at h
  by_cases hcond : strtofConsumed cs ≠ 0 ∧ strtofConsumed cs ≠ cs.length
  · by_cases hall : (cs.take (strtofConsumed cs)).all floatAccepted = true
    · simp [hcond, hall] at h
      rw [← h.2]
      exact hall
    · simp [hcond, hall] at h
  · simp only [hcond] at h
    by_cases hrun : (cs.takeWhile floatAccepted).length ≠ cs.length
    · simp [hrun] at h
    · simp [hrun] at h

/-! Helper lemmas showing that an array or object scan that reports completion
has reset its scanning-control state (the `began` flag, resp. the state enum
and the `activating`/`active` indices). -/

theorem parseArrayStep_reset (st : ParseArray) (pool : ParserPool) (cs : List Nat)
    (b : Nat) (st1 : ParseArray) (pool1 : ParserPool) (p : Nat)
    (h : ParseArray.step st pool cs b = Flow.ret (Except.ok (st1, pool1, some p))) :
    st1.began = false ∧ st1.finished = true := by
  simp only [ParseArray.step] at h
  repeat' split at h
  all_goals try simp_all
  all_goals obtain ⟨rfl, -, -⟩ := h
  all_goals exact ⟨rfl, rfl⟩

theorem parseArrayLoop_reset (fuel : Nat) :
    ∀ (st : ParseArray) (pool : ParserPool) (cs : List Nat) (b : Nat)
      (st1 : ParseArray) (pool1 : ParserPool) (p : Nat),
      ParseArray.loop fuel st pool cs b = Except.ok (st1, pool1, some p) →
      st1.began = false ∧ st1.finished = true := by
  induction fuel with
  | zero =>
    intro st pool cs b st1 pool1 p h
    simp [ParseArray.loop] at h
  | succ n ih =>
    intro st pool cs b st1 pool1 p h
    simp only [ParseArray.loop] at h
    split at h
    · simp_all
    · cases hs : ParseArray.step st pool cs b with
      | ret r =>
        rw [hs] at h
        exact parseArrayStep_reset st pool cs b st1 pool1 p
          (by rw [hs]; exact congrArg Flow.ret h)
      | cont st2 pool2 b2 =>
        rw [hs] at h
        exact ih st2 pool2 cs b2 st1 pool1 p h

theorem parseArrayScan_reset (st : ParseArray) (pool : ParserPool) (cs : List Nat)
    (st1 : ParseArray) (pool1 : ParserPool) (p : Nat)
    (h : ParseArray.Scan st pool cs = Except.ok (st1, pool1, some p)) :
    st1.began = false ∧ st1.finished = true := by
  unfold ParseArray.Scan at h
  repeat' split at h
  all_goals try (simp_all; done)
  all_goals exact parseArrayLoop_reset _ _ _ _ _ _ _ _ h

theorem containerArrayStep_reset (st : ParseContainerArray) (pool : ParserPool)
    (cs : List Nat) (b : Nat) (st1 : ParseContainerArray) (pool1 : ParserPool) (p : Nat)
    (h : ParseContainerArray.step st pool cs b = Flow.ret (Except.ok (st1, pool1, some p))) :
    st1.began = false ∧ st1.finished = true := by
  simp only [ParseContainerArray.step] at h
  repeat' split at h
  all_goals try simp_all
  all_goals obtain ⟨rfl, -, -⟩ := h
  all_goals exact ⟨rfl, rfl⟩

theorem containerArrayLoop_reset (fuel : Nat) :
    ∀ (st : ParseContainerArray) (pool : ParserPool) (cs : List Nat) (b : Nat)
      (st1 : ParseContainerArray) (pool1 : ParserPool) (p : Nat),
      ParseContainerArray.loop fuel st pool cs b = Except.ok (st1, pool1, some p) →
      st1.began = false ∧ st1.finished = true := by
  induction fuel with
  | zero =>
    intro st pool cs b st1 pool1 p h
    simp [ParseContainerArray.loop] at h
  | succ n ih =>
    intro st pool cs b st1 pool1 p h
    simp only [ParseContainerArray.loop] at h
    split at h
    · simp_all
    · cases hs : ParseContainerArray.step st pool cs b with
      | ret r =>
        rw [hs] at h
        exact containerArrayStep_reset st pool cs b st1 pool1 p
          (by rw [hs]; exact congrArg Flow.ret h)
      | cont st2 pool2 b2 =>
        rw [hs] at h
        exact ih st2 pool2 cs b2 st1 pool1 p h

theorem containerArrayScan_reset (st : ParseContainerArray) (pool : ParserPool)
    (cs : List Nat) (st1 : ParseContainerArray) (pool1 : ParserPool) (p : Nat)
    (h : ParseContainerArray.Scan st pool cs = Except.ok (st1, pool1, some p)) :
    st1.began = false ∧ st1.finished = true := by
  unfold ParseContainerArray.Scan at h
  repeat' split at h
  all_goals try (simp_all; done)
  all_goals exact containerArrayLoop_reset _ _ _ _ _ _ _ _ h

theorem objectCheckPassed_reset (schema : List FieldDesc) (st : ParseObject)
    (pool : ParserPool) (q : Nat) (st1 : ParseObject) (pool1 : ParserPool) (r : Option Nat)
    (h : ParseObject.checkPassed schema st pool q = Except.ok (st1, pool1, r)) :
    st1.state = OState.NotStarted ∧ st1.activating = -1 ∧ st1.active = -1
      ∧ st1.finished = true := by
  unfold ParseObject.checkPassed at h
  split at h
  · simp_all
  · simp only [Except.ok.injEq, Prod.mk.injEq] at h
    obtain ⟨rfl, -, -⟩ := h
    exact ⟨rfl, rfl, rfl, rfl⟩

theorem objectStagePreKey_reset (schema : List FieldDesc) (st : ParseObject)
    (pool : ParserPool) (cs : List Nat) (b : Nat) (st1 : ParseObject) (pool1 : ParserPool)
    (p : Nat)
    (h : ParseObject.stagePreKey schema st pool cs b = Flow.ret (Except.ok (st1, pool1, some p))) :
    st1.state = OState.NotStarted ∧ st1.activating = -1 ∧ st1.active = -1
      ∧ st1.finished = true := by
  unfold ParseObject.stagePreKey at h
  repeat' split at h
  all_goals try (simp_all; done)
  all_goals exact objectCheckPassed_reset _ _ _ _ _ _ _ (by injection h)

theorem objectStageExpectKey_silent (schema : List FieldDesc) (st : ParseObject)
    (pool : ParserPool) (cs : List Nat) (b : Nat) (st1 : ParseObject) (pool1 : ParserPool)
    (p : Nat)
    (h : ParseObject.stageExpectKey schema st pool cs b
          = Flow.ret (Except.ok (st1, pool1, some p))) :
    st1.state = OState.NotStarted ∧ st1.activating = -1 ∧ st1.active = -1
      ∧ st1.finished = true := by
  unfold ParseObject.stageExpectKey at h
  repeat' split at h
  all_goals simp_all

theorem objectStagePreColon_silent (st : ParseObject) (pool : ParserPool)
    (cs : List Nat) (b : Nat) (st1 : ParseObject) (pool1 : ParserPool) (p : Nat)
    (h : ParseObject.stagePreColon st pool cs b = Flow.ret (Except.ok (st1, pool1, some p))) :
    st1.state = OState.NotStarted ∧ st1.activating = -1 ∧ st1.active = -1
      ∧ st1.finished = true := by
  unfold ParseObject.stagePreColon at h
  repeat' split at h
  all_goals simp_all

theorem objectStageExpectColon_silent (st : ParseObject) (pool : ParserPool)
    (cs : List Nat) (b : Nat) (st1 : ParseObject) (pool1 : ParserPool) (p : Nat)
    (h : ParseObject.stageExpectColon st pool cs b = Flow.ret (Except.ok (st1, pool1, some p))) :
    st1.state = OState.NotStarted ∧ st1.activating = -1 ∧ st1.active = -1
      ∧ st1.finished = true := by
  unfold ParseObject.stageExpectColon at h
  repeat' split at h
  all_goals simp_all

theorem objectStagePreValue_silent (st : ParseObject) (pool : ParserPool)
    (cs : List Nat) (b : Nat) (st1 : ParseObject) (pool1 : ParserPool) (p : Nat)
    (h : ParseObject.stagePreValue st pool cs b = Flow.ret (Except.ok (st1, pool1, some p))) :
    st1.state = OState.NotStarted ∧ st1.activating = -1 ∧ st1.active = -1
      ∧ st1.finished = true := by
  unfold ParseObject.stagePreValue at h
  repeat' split at h
  all_goals simp_all

theorem objectStageExpectValue_silent (st : ParseObject) (pool : ParserPool)
    (cs : List Nat) (b : Nat) (st1 : ParseObject) (pool1 : ParserPool) (p : Nat)
    (h : ParseObject.stageExpectValue st pool cs b = Flow.ret (Except.ok (st1, pool1, some p))) :
    st1.state = OState.NotStarted ∧ st1.activating = -1 ∧ st1.active = -1
      ∧ st1.finished = true := by
  unfold ParseObject.stageExpectValue at h
  repeat' split at h
  all_goals simp_all

theorem objectStagePreComma_silent (st : ParseObject) (pool : ParserPool)
    (cs : List Nat) (b : Nat) (st1 : ParseObject) (pool1 : ParserPool) (p : Nat)
    (h : ParseObject.stagePreComma st pool cs b = Flow.ret (Except.ok (st1, pool1, some p))) :
    st1.state = OState.NotStarted ∧ st1.activating = -1 ∧ st1.active = -1
      ∧ st1.finished = true := by
  unfold ParseObject.stagePreComma at h
  repeat' split at h
  all_goals simp_all

theorem objectStageExpectComma_reset (schema : List FieldDesc) (st : ParseObject)
    (pool : ParserPool) (cs : List Nat) (b : Nat) (st1 : ParseObject) (pool1 : ParserPool)
    (p : Nat)
    (h : ParseObject.stageExpectComma schema st pool cs b
          = Flow.ret (Except.ok (st1, pool1, some p))) :
    st1.state = OState.NotStarted ∧ st1.activating = -1 ∧ st1.active = -1
      ∧ st1.finished = true := by
  unfold ParseObject.stageExpectComma at h
  repeat' split at h
  all_goals try (simp_all; done)
  all_goals exact objectCheckPassed_reset _ _ _ _ _ _ _ (by injection h)

theorem objectStep_reset (schema : List FieldDesc) (st : ParseObject)
    (pool : ParserPool) (cs : List Nat) (b : Nat) (st1 : ParseObject) (pool1 : ParserPool)
    (p : Nat)
    (h : ParseObject.step schema st pool cs b = Flow.ret (Except.ok (st1, pool1, some p))) :
    st1.state = OState.NotStarted ∧ st1.activating = -1 ∧ st1.active = -1
      ∧ st1.finished = true := by
  unfold ParseObject.step at h
  cases h1 : ParseObject.stagePreKey schema st pool cs b with
  | ret r => rw [h1] at h; exact objectStagePreKey_reset _ _ _ _ _ _ _ _ (h1.trans h)
  | cont s2 q2 b2 =>
  rw [h1] at h
  dsimp only at h
  cases h2 : ParseObject.stageExpectKey schema s2 q2 cs b2 with
  | ret r => rw [h2] at h; exact objectStageExpectKey_silent _ _ _ _ _ _ _ _ (h2.trans h)
  | cont s3 q3 b3 =>
  rw [h2] at h
  dsimp only at h
  cases h3 : ParseObject.stagePreColon s3 q3 cs b3 with
  | ret r => rw [h3] at h; exact objectStagePreColon_silent _ _ _ _ _ _ _ (h3.trans h)
  | cont s4 q4 b4 =>
  rw [h3] at h
  dsimp only at h
  cases h4 : ParseObject.stageExpectColon s4 q4 cs b4 with
  | ret r => rw [h4] at h; exact objectStageExpectColon_silent _ _ _ _ _ _ _ (h4.trans h)
  | cont s5 q5 b5 =>
  rw [h4] at h
  dsimp only at h
  cases h5 : ParseObject.stagePreValue s5 q5 cs b5 with
  | ret r => rw [h5] at h; exact objectStagePreValue_silent _ _ _ _ _ _ _ (h5.trans h)
  | cont s6 q6 b6 =>
  rw [h5] at h
  dsimp only at h
  cases h6 : ParseObject.stageExpectValue s6 q6 cs b6 with
  | ret r => rw [h6] at h; exact objectStageExpectValue_silent _ _ _ _ _ _ _ (h6.trans h)
  | cont s7 q7 b7 =>
  rw [h6] at h
  dsimp only at h
  cases h7 : ParseObject.stagePreComma s7 q7 cs b7 with
  | ret r => rw [h7] at h; exact objectStagePreComma_silent _ _ _ _ _ _ _ (h7.trans h)
  | cont s8 q8 b8 =>
  rw [h7] at h
  dsimp only at h
  cases h8 : ParseObject.stageExpectComma schema s8 q8 cs b8 with
  | ret r =>
    rw [h8] at h
    exact objectStageExpectComma_reset _ _ _ _ _ _ _ _ (h8.trans h)
  | cont s9 q9 b9 =>
    rw [h8] at h
    dsimp only at h
    simp at h

theorem objectLoop_reset (schema : List FieldDesc) (fuel : Nat) :
    ∀ (st : ParseObject) (pool : ParserPool) (cs : List Nat) (b : Nat)
      (st1 : ParseObject) (pool1 : ParserPool) (p : Nat),
      ParseObject.loop schema fuel st pool cs b = Except.ok (st1, pool1, some p) →
      st1.state = OState.NotStarted ∧ st1.activating = -1 ∧ st1.active = -1
        ∧ st1.finished = true := by
  induction fuel with
  | zero =>
    intro st pool cs b st1 pool1 p h
    simp [ParseObject.loop] at h
  | succ n ih =>
    intro st pool cs b st1 pool1 p h
    simp only [ParseObject.loop] at h
    split at h
    · simp_all
    · cases hs : ParseObject.step schema st pool cs b with
      | ret r =>
        rw [hs] at h
        exact objectStep_reset schema st pool cs b st1 pool1 p
          (by rw [hs]; exact congrArg Flow.ret h)
      | cont st2 pool2 b2 =>
        rw [hs] at h
        exact ih st2 pool2 cs b2 st1 pool1 p h

theorem objectScan_reset (schema : List FieldDesc) (st : ParseObject)
    (pool : ParserPool) (cs : List Nat) (st1 : ParseObject) (pool1 : ParserPool) (p : Nat)
    (h : ParseObject.Scan schema st pool cs = Except.ok (st1, pool1, some p)) :
    st1.state = OState.NotStarted ∧ st1.activating = -1 ∧ st1.active = -1
      ∧ st1.finished = true := by
  unfold ParseObject.Scan at h
  repeat' split at h
  all_goals try (simp_all; done)
  all_goals exact objectLoop_reset _ _ _ _ _ _ _ _ _ h

/-! The claims. -/

/-- Claim C1: the spec demands that decoding a valid message as one full span
and decoding it split at any byte boundary yield identical decoded outputs.
The float scanner violates this: for the message `1e5 ` the full-span scan
completes at offset 3 having converted the literal `1e5` (value 100000), but
when the message is chunked as `1e` + `5 `, the first call already completes
at offset 1 having converted only `1` (value 1) — `strtof` stops after the
mantissa because `1e` alone is not a valid literal, the consumed run survives
the alphabet re-scan, and the scan finishes early instead of suspending.  The
two decodings return different positions and different values. -/
theorem C1_float_chunk_split_diverges :
    ParseFloat.Scan ParserPool.init (bytes "1e5 ")
      = Except.ok ({ ParserPool.init with floatValue := bytes "1e5" }, some 3)
  ∧ ParseFloat.Scan ParserPool.init (bytes "1e")
      = Except.ok ({ ParserPool.init with floatValue := bytes "1" }, some 1)
  ∧ litVal (bytes "1e5") = 100000
  ∧ litVal (bytes "1") = 1 := by
  refine ⟨by decide, by decide, ?_, ?_⟩
  · unfold litVal
    rw [show litNum (bytes "1e5") = (100000, 0) from by decide]
    norm_num
  · unfold litVal
    rw [show litNum (bytes "1") = (1, 0) from by decide]
    norm_num

/-- Claim C2, counterexample: the object combinator's `Swap` does not raise
the not-finished error.  After scanning the incomplete message `{"name":1 `
(the closing brace has not arrived), the combinator reports not finished,
yet `Swap` hands out the accumulated record, already holding the decoded
value 1 with its given-flag set. -/
theorem C2_object_swap_unguarded :
    (ParseObject.Scan schemaRequiredName (ParseObject.init schemaRequiredName) ParserPool.init
        (bytes "\x7b\"name\":1 ")).toOption.map
      (fun r => (r.1.finished, r.2.2, (ParseObject.Swap schemaRequiredName r.1).1))
    = some (false, none, [{ given := true, value := bytes "1" }]) := by decide

/-- Claim C2, amended: the array and nested-array combinators guard `Swap`
with the not-finished error whenever the scan has not reported completion;
the object combinator's `Swap` performs no such check and always hands out
the current output record. -/
theorem C2_swap_not_finished_guard :
    (∀ st : ParseArray, st.finished = false → ParseArray.Swap st = Except.error Err.notFinished)
  ∧ (∀ st : ParseContainerArray, st.finished = false →
        ParseContainerArray.Swap st = Except.error Err.notFinished)
  ∧ (∀ (schema : List FieldDesc) (st : ParseObject), st.finished = false →
        (ParseObject.Swap schema st).1 = st.outFields) := by
  refine ⟨fun st h => ?_, fun st h => ?_, fun schema st h => rfl⟩
  · simp [ParseArray.Swap, h]
  · simp [ParseContainerArray.Swap, h]

/-- Claim C2, witness: the guard theorem applied to concrete unfinished
array combinators. -/
theorem C2_swap_not_finished_guard_witness :
    ParseArray.Swap { ParseArray.init with finished := false } = Except.error Err.notFinished
  ∧ ParseContainerArray.Swap { ParseContainerArray.init with finished := false }
      = Except.error Err.notFinished :=
  ⟨C2_swap_not_finished_guard.1 { ParseArray.init with finished := false } rfl,
   C2_swap_not_finished_guard.2.1 { ParseContainerArray.init with finished := false } rfl⟩

/-- Claim C3: decoding `{}` against a schema with a required field raises the
required-key-not-given error; against a schema with only optional fields it
completes at offset 2 with the output record untouched, every given-flag
false; and in general the completion check fails with required-key-not-given
whenever some required schema field's slot lacks its given-flag. -/
theorem C3_required_key_enforcement :
    ParseObject.Scan schemaRequiredName (ParseObject.init schemaRequiredName) ParserPool.init
      (bytes "\x7b\x7d") = Except.error Err.requiredKeyNotGiven
  ∧ ParseObject.Scan schemaOptionalName (ParseObject.init schemaOptionalName) ParserPool.init
      (bytes "\x7b\x7d")
      = Except.ok (ParseObject.init schemaOptionalName, ParserPool.init, some 2)
  ∧ (ParseObject.init schemaOptionalName).outFields = [{ given := false, value := [] }]
  ∧ (∀ (schema : List FieldDesc) (st : ParseObject) (pool : ParserPool) (q : Nat),
        (schema.zip st.outFields).any (fun z => z.1.required && !z.2.given) = true →
        ParseObject.checkPassed schema st pool q = Except.error Err.requiredKeyNotGiven) := by
  refine ⟨by decide, by decide, by decide, fun schema st pool q h => ?_⟩
  unfold ParseObject.checkPassed
  simp [h]

/-- Claim C3, witness: the completion check applied to a freshly constructed
required-field combinator (its only given-flag is false). -/
theorem C3_required_key_enforcement_witness :
    ParseObject.checkPassed schemaRequiredName (ParseObject.init schemaRequiredName)
      ParserPool.init 2 = Except.error Err.requiredKeyNotGiven :=
  C3_required_key_enforcement.2.2.2 schemaRequiredName (ParseObject.init schemaRequiredName)
    ParserPool.init 2 (by decide)

/-- Claim C4, counterexample: decoding `[1,]` with the float array combinator
does fail, but the raised error is the invalid-float error, not the
array-separator error the claim names: the comma is consumed as a separator
and the following `]` is handed to the float element scanner, which rejects
it. -/
theorem C4_trailing_comma_not_separator_error :
    ParseArray.Scan ParseArray.init ParserPool.init (bytes "[1,]")
      = Except.error Err.invalidFloat
  ∧ Err.invalidFloat ≠ Err.invalidArraySeparator := by decide

/-- Claim C4, amended: decoding `[1,]` with the homogeneous float array
combinator fails, and the error raised is the invalid-float error from the
element scanner that receives the `]` after the consumed comma. -/
theorem C4_trailing_comma_invalid_float :
    ParseArray.Scan ParseArray.init ParserPool.init (bytes "[1,]")
      = Except.error Err.invalidFloat := by decide

/-- Claim C5, counterexample: the whitespace scanner called on a span whose
first byte is already non-whitespace returns offset 0, i.e. `Begin` itself,
which is not strictly greater than `Begin`. -/
theorem C5_whitespace_returns_begin :
    SkipWhitespace.Scan ParserPool.init (bytes "z") = (ParserPool.init, some 0)
  ∧ ¬ (0 : Nat) > 0 := by decide

/-- Claim C5, amended: a whitespace scan returns either the not-finished
sentinel or the offset (relative to `Begin`, hence ≥ `Begin`) of the first
non-whitespace byte — every earlier byte is whitespace and the byte at the
returned position is not; in particular when the byte at `Begin` is already
non-whitespace the scanner returns exactly `Begin`, not a strictly greater
position. -/
theorem C5_whitespace_first_nonspace (pool : ParserPool) (cs : List Nat) (p : Nat)
    (h : (SkipWhitespace.Scan pool cs).2 = some p) :
    p < cs.length ∧ isJsonWS (byteAt cs p) = false
      ∧ ∀ i, i < p → isJsonWS (byteAt cs i) = true := by
  unfold SkipWhitespace.Scan at h
  by_cases hc : (cs.takeWhile isJsonWS).length = cs.length
  · simp [hc] at h
  · simp [hc] at h
    have hle := takeWhile_len_le isJsonWS cs
    have hlt : (cs.takeWhile isJsonWS).length < cs.length := by omega
    subst h
    exact ⟨hlt, (takeWhile_spec isJsonWS cs).2 hlt,
      fun i hi => (takeWhile_spec isJsonWS cs).1 i hi⟩

/-- Claim C5, witness: the amended theorem applied to the span ` z`, whose
whitespace scan returns offset 1. -/
theorem C5_whitespace_first_nonspace_witness :
    1 < (bytes " z").length ∧ isJsonWS (byteAt (bytes " z") 1) = false :=
  ⟨(C5_whitespace_first_nonspace ParserPool.init (bytes " z") 1 (by decide)).1,
   (C5_whitespace_first_nonspace ParserPool.init (bytes " z") 1 (by decide)).2.1⟩

/-- Claim C6: starting a fresh token, whenever `strtof` consumes a non-empty
run that contains a character outside the accepted alphabet (digits, `.`,
`e`, `E`, `-`, `+`) — as every hexadecimal-float, `inf` or `nan` spelling
does (`x`, `i`, `n`) — the float scanner rejects the input with the
invalid-float error; and conversely any scan that completes has consumed
only characters of that alphabet. -/
theorem C6_float_literal_alphabet :
    (∀ (pool : ParserPool) (cs : List Nat) (i : Nat),
        pool.buffer = [] → 0 < strtofConsumed cs → i < strtofConsumed cs → i < cs.length →
        floatAccepted (byteAt cs i) = false →
        ParseFloat.Scan pool cs = Except.error Err.invalidFloat)
  ∧ (∀ (pool pool1 : ParserPool) (cs : List Nat) (p : Nat),
        pool.buffer = [] → ParseFloat.Scan pool cs = Except.ok (pool1, some p) →
        (cs.take p).all floatAccepted = true) :=
  ⟨fun pool cs i h1 h2 h3 h4 h5 => floatScan_stray_invalid pool cs i h1 h2 h3 h4 h5,
   fun pool pool1 cs p h1 h2 => floatScan_ok_alphabet pool pool1 cs p h1 h2⟩

/-- Claim C6, witness: the rejection applied to `0x1p3 ` (the `x` at offset
1), `inf ` and `nan ` (letters at offset 0). -/
theorem C6_float_literal_alphabet_witness :
    ParseFloat.Scan ParserPool.init (bytes "0x1p3 ") = Except.error Err.invalidFloat
  ∧ ParseFloat.Scan ParserPool.init (bytes "inf ") = Except.error Err.invalidFloat
  ∧ ParseFloat.Scan ParserPool.init (bytes "nan ") = Except.error Err.invalidFloat :=
  ⟨C6_float_literal_alphabet.1 ParserPool.init (bytes "0x1p3 ") 1 rfl
      (by decide) (by decide) (by decide) (by decide),
   C6_float_literal_alphabet.1 ParserPool.init (bytes "inf ") 0 rfl
      (by decide) (by decide) (by decide) (by decide),
   C6_float_literal_alphabet.1 ParserPool.init (bytes "nan ") 0 rfl
      (by decide) (by decide) (by decide) (by decide)⟩

/-- Claim C7: the string scanner decodes `\uXXXX` escapes to UTF-8 with the
1-, 2- and 3-byte forms: `"\u0079"` yields the single byte 0x79, `"\u0080"`
yields 0xC2 0x80, and `"\u0800"` yields 0xE0 0xA0 0x80 (each scan completing
at offset 8, past the closing quote). -/
theorem C7_unicode_escape_utf8 :
    (ParseString.Scan ParserPool.init (bytes "\"\\u0079\"")).toOption.map
      (fun r => (r.1.stringValue, r.2)) = some ([0x79], some 8)
  ∧ (ParseString.Scan ParserPool.init (bytes "\"\\u0080\"")).toOption.map
      (fun r => (r.1.stringValue, r.2)) = some ([0xC2, 0x80], some 8)
  ∧ (ParseString.Scan ParserPool.init (bytes "\"\\u0800\"")).toOption.map
      (fun r => (r.1.stringValue, r.2)) = some ([0xE0, 0xA0, 0x80], some 8) := by decide

/-- Claim C8: for any two digit values, decoding an object that repeats the
schema key `name` (`{"name":d1,"name":d2}`) raises no error — the scan
completes — and the decoded record holds the value of the last occurrence
with its given-flag set: last write wins. -/
theorem C8_duplicate_key_last_write_wins : ∀ d1 d2 : Fin 10,
    (ParseObject.Scan schemaOptionalName (ParseObject.init schemaOptionalName) ParserPool.init
        (bytes "\x7b\"name\":" ++ [48 + d1.val] ++ bytes ",\"name\":" ++ [48 + d2.val]
          ++ bytes "\x7d")).toOption.map
      (fun r => (r.1.outFields, r.1.finished, r.2.2))
    = some ([{ given := true, value := [48 + d2.val] }], true, some 19) := by decide

/-- Claim C8, witness: the last-write-wins theorem at the concrete digits 1
and 2 — the record holds 2. -/
theorem C8_duplicate_key_last_write_wins_witness :
    (ParseObject.Scan schemaOptionalName (ParseObject.init schemaOptionalName) ParserPool.init
        (bytes "\x7b\"name\":" ++ [48 + (1 : Fin 10).val] ++ bytes ",\"name\":"
          ++ [48 + (2 : Fin 10).val] ++ bytes "\x7d")).toOption.map
      (fun r => (r.1.outFields, r.1.finished, r.2.2))
    = some ([{ given := true, value := [48 + (2 : Fin 10).val] }], true, some 19) :=
  C8_duplicate_key_last_write_wins 1 2

/-- Claim C9, counterexample: at completion the combinator state does not
equal its initial state.  After scanning `[1]` to completion, the array
combinator still holds the accumulated element, so it differs from a fresh
instance, and without an intervening `Swap` it cannot parse a next array:
scanning `[2]` raises the array-separator error, while a fresh instance
decodes `[2]` successfully. -/
theorem C9_completion_retains_output :
    ParseArray.Scan ParseArray.init ParserPool.init (bytes "[1]")
      = Except.ok ({ ParseArray.init with out := [bytes "1"] },
                   { ParserPool.init with floatValue := bytes "1" }, some 3)
  ∧ ({ ParseArray.init with out := [bytes "1"] } : ParseArray) ≠ ParseArray.init
  ∧ ParseArray.Scan { ParseArray.init with out := [bytes "1"] }
      { ParserPool.init with floatValue := bytes "1" } (bytes "[2]")
      = Except.error Err.invalidArraySeparator
  ∧ ParseArray.Scan ParseArray.init { ParserPool.init with floatValue := bytes "1" } (bytes "[2]")
      = Except.ok ({ ParseArray.init with out := [bytes "2"] },
                   { ParserPool.init with floatValue := bytes "2" }, some 3) := by decide

/-- Claim C9, amended: at the moment a scan call reports completion each
combinator has reset its scanning-control state — the arrays their `began`
flag, the object its state enum and `activating`/`active` indices — but the
accumulated output value is retained until extracted with `Swap`; after
`Swap` (which returns the accumulated list and empties the member) the same
instance parses the next message exactly as a fresh one would. -/
theorem C9_completion_resets_control :
    (∀ (st : ParseArray) (pool : ParserPool) (cs : List Nat)
        (st1 : ParseArray) (pool1 : ParserPool) (p : Nat),
        ParseArray.Scan st pool cs = Except.ok (st1, pool1, some p) →
        st1.began = false ∧ st1.finished = true)
  ∧ (∀ (st : ParseContainerArray) (pool : ParserPool) (cs : List Nat)
        (st1 : ParseContainerArray) (pool1 : ParserPool) (p : Nat),
        ParseContainerArray.Scan st pool cs = Except.ok (st1, pool1, some p) →
        st1.began = false ∧ st1.finished = true)
  ∧ (∀ (schema : List FieldDesc) (st : ParseObject) (pool : ParserPool) (cs : List Nat)
        (st1 : ParseObject) (pool1 : ParserPool) (p : Nat),
        ParseObject.Scan schema st pool cs = Except.ok (st1, pool1, some p) →
        st1.state = OState.NotStarted ∧ st1.activating = -1 ∧ st1.active = -1
          ∧ st1.finished = true)
  ∧ ParseArray.Swap { ParseArray.init with out := [bytes "1"] }
      = Except.ok ([bytes "1"], ParseArray.init)
  ∧ ParseArray.Scan ParseArray.init { ParserPool.init with floatValue := bytes "1" } (bytes "[2]")
      = Except.ok ({ ParseArray.init with out := [bytes "2"] },
                   { ParserPool.init with floatValue := bytes "2" }, some 3) :=
  ⟨fun st pool cs st1 pool1 p h => parseArrayScan_reset st pool cs st1 pool1 p h,
   fun st pool cs st1 pool1 p h => containerArrayScan_reset st pool cs st1 pool1 p h,
   fun schema st pool cs st1 pool1 p h =>
     objectScan_reset schema st pool cs st1 pool1 p h,
   by decide, by decide⟩

/-- Claim C9, witness: the control-state reset applied to the completing run
of `[1]` from a fresh array combinator. -/
theorem C9_completion_resets_control_witness :
    ({ ParseArray.init with out := [bytes "1"] } : ParseArray).began = false
  ∧ ({ ParseArray.init with out := [bytes "1"] } : ParseArray).finished = true :=
  C9_completion_resets_control.1 ParseArray.init ParserPool.init (bytes "[1]")
    { ParseArray.init with out := [bytes "1"] }
    { ParserPool.init with floatValue := bytes "1" } 3 (by decide)

/-- Claim C10: when the float scanner starts a fresh token on a span whose
bytes all belong to the accepted numeric alphabet and whose `strtof`
conversion does not stop strictly before `End` (it consumes the whole span
or nothing), the scan copies the run into the scratch buffer and returns the
not-finished sentinel rather than completing — even when the consumed text
already forms a complete float literal. -/
theorem C10_float_full_span_suspends (pool : ParserPool) (cs : List Nat)
    (hbuf : pool.buffer = [])
    (hall : cs.all floatAccepted = true)
    (hcons : strtofConsumed cs = cs.length ∨ strtofConsumed cs = 0) :
    ParseFloat.Scan pool cs
      = Except.ok ({ pool with
                      buffer := cs,
                      floatParser := ⟨false⟩,
                      floatValue := cs.take (strtofConsumed cs) }, none) := by
  have hrun : cs.takeWhile floatAccepted = cs := takeWhile_all_eq_self _ _ hall
  have hne : ¬(strtofConsumed cs ≠ 0 ∧ strtofConsumed cs ≠ cs.length) := by
    rcases hcons with h | h <;> simp [h]
  unfold ParseFloat.Scan
  rw [hbuf]
  simp [hne, hrun, hbuf]

/-- Claim C10, witness: the span `123` is a complete literal, yet the scan
buffers it and suspends. -/
theorem C10_float_full_span_suspends_witness :
    ParseFloat.Scan ParserPool.init (bytes "123")
      = Except.ok ({ ParserPool.init with
                      buffer := bytes "123",
                      floatParser := ⟨false⟩,
                      floatValue := (bytes "123").take (strtofConsumed (bytes "123")) }, none) :=
  C10_float_full_span_suspends ParserPool.init (bytes "123") rfl (by decide) (Or.inl (by decide))

end JSONParsers
